import Mathlib

/-!
Verification development for the Reticulum resource-transfer core:
`RNS/Resource.py` (resource state machine, windowing, advertisements)
and `RNS/Interfaces/BackboneInterface.py` (HDLC framing).

Byte strings are modelled as `List Nat`; Python integers as `Int` where
negative intermediate values can occur, `Nat` otherwise.
-/

namespace HDLC

/-- `HDLC.FLAG` from BackboneInterface.py. -/
def FLAG : Nat := 0x7E

/-- `HDLC.ESC` from BackboneInterface.py. -/
def ESC : Nat := 0x7D

/-- `HDLC.ESC_MASK` from BackboneInterface.py. -/
def ESC_MASK : Nat := 0x20

/-- Python `bytes.replace(pat, rep)`: scan left to right, replace each
non-overlapping occurrence of `pat`, and continue scanning after the
replacement text (the replacement is not rescanned). -/
def pyReplace (s pat rep : List Nat) : List Nat :=
  match s with
  | [] => []
  | c :: rest =>
    if pat ≠ [] ∧ pat.isPrefixOf (c :: rest) then
      rep ++ pyReplace ((c :: rest).drop pat.length) pat rep
    else
      c :: pyReplace rest pat rep
termination_by s.length
decreasing_by
  · rename_i h
    have hp : 0 < pat.length := List.length_pos.mpr h.1
    simp only [List.length_drop, List.length_cons]
    omega
  · simp

/-- `HDLC.escape(data)`: first replace each `ESC` with `(ESC, ESC^ESC_MASK)`,
then each `FLAG` with `(ESC, FLAG^ESC_MASK)` (BackboneInterface.py lines 37-41). -/
def escape (data : List Nat) : List Nat :=
  pyReplace (pyReplace data [ESC] [ESC, ESC ^^^ ESC_MASK]) [FLAG] [ESC, FLAG ^^^ ESC_MASK]

/-- The receiver's reverse-unescape (BackboneInterface.py lines 539-540):
first replace each `(ESC, FLAG^ESC_MASK)` with `FLAG`, then each
`(ESC, ESC^ESC_MASK)` with `ESC`. -/
def unescape (frame : List Nat) : List Nat :=
  pyReplace (pyReplace frame [ESC, FLAG ^^^ ESC_MASK] [FLAG]) [ESC, ESC ^^^ ESC_MASK] [ESC]

/-- Apply a byte-to-bytes expansion to every byte of a string. -/
def byteExpand (f : Nat → List Nat) : List Nat → List Nat
  | [] => []
  | b :: t => f b ++ byteExpand f t

/-- Per-byte effect of the complete escape transformation. -/
def escByte (b : Nat) : List Nat :=
  if b = ESC then [ESC, ESC ^^^ ESC_MASK]
  else if b = FLAG then [ESC, FLAG ^^^ ESC_MASK]
  else [b]

theorem pyReplace_nil (pat rep : List Nat) : pyReplace [] pat rep = [] := by
  rw [pyReplace]

theorem pyReplace_cons (c : Nat) (rest pat rep : List Nat) :
    pyReplace (c :: rest) pat rep =
      if pat ≠ [] ∧ pat.isPrefixOf (c :: rest) then
        rep ++ pyReplace ((c :: rest).drop pat.length) pat rep
      else
        c :: pyReplace rest pat rep := by
  rw [pyReplace]

/-- Replacement of a single-byte pattern is a per-byte expansion. -/
theorem pyReplace_single (s : List Nat) (a : Nat) (rep : List Nat) :
    pyReplace s [a] rep = byteExpand (fun b => if b = a then rep else [b]) s := by
  induction s with
  | nil => simp [pyReplace_nil, byteExpand]
  | cons c rest ih =>
    rw [pyReplace_cons]
    by_cases hc : c = a
    · subst hc
      simp [List.isPrefixOf, byteExpand, ih]
    · simp [List.isPrefixOf, byteExpand, hc, ih, Ne.symm hc]

theorem byteExpand_append (f : Nat → List Nat) (l₁ l₂ : List Nat) :
    byteExpand f (l₁ ++ l₂) = byteExpand f l₁ ++ byteExpand f l₂ := by
  induction l₁ with
  | nil => simp [byteExpand]
  | cons c t ih => simp [byteExpand, ih]

/-- The two replacement passes of `escape` amount to the per-byte map `escByte`. -/
theorem escape_eq_byteExpand (data : List Nat) :
    escape data = byteExpand escByte data := by
  unfold escape
  rw [pyReplace_single, pyReplace_single]
  induction data with
  | nil => rfl
  | cons c rest ih =>
    simp only [byteExpand, byteExpand_append, ih]
    by_cases hesc : c = ESC
    · subst hesc
      simp [escByte, byteExpand, ESC, FLAG, ESC_MASK]
    · by_cases hflag : c = FLAG
      · subst hflag
        simp [escByte, byteExpand, ESC, FLAG, ESC_MASK]
      · simp [escByte, byteExpand, hesc, hflag]

/-- Per-byte effect after the receiver's first unescape pass has removed
the FLAG escapes: only the ESC escapes remain. -/
def escEscOnly (b : Nat) : List Nat :=
  if b = ESC then [ESC, ESC ^^^ ESC_MASK] else [b]

theorem escMask_eq : ESC ^^^ ESC_MASK = 93 := by decide

theorem flagMask_eq : FLAG ^^^ ESC_MASK = 94 := by decide

theorem escByte_esc : escByte 125 = [125, 93] := by decide

theorem escByte_flag : escByte 126 = [125, 94] := by decide

theorem escByte_other {c : Nat} (h1 : c ≠ 125) (h2 : c ≠ 126) :
    escByte c = [c] := by
  simp [escByte, ESC, FLAG, h1, h2]

theorem escEscOnly_esc : escEscOnly 125 = [125, 93] := by decide

theorem escEscOnly_other {c : Nat} (h1 : c ≠ 125) : escEscOnly c = [c] := by
  simp [escEscOnly, ESC, h1]

/-- The first unescape pass (`(ESC, FLAG^ESC_MASK) ↦ FLAG`) applied to an
escaped string restores the FLAG bytes and leaves the ESC escapes in place. -/
theorem unescape_first_pass (p : List Nat) :
    pyReplace (byteExpand escByte p) [ESC, FLAG ^^^ ESC_MASK] [FLAG] =
      byteExpand escEscOnly p := by
  rw [flagMask_eq]
  show pyReplace (byteExpand escByte p) [125, 94] [126] = byteExpand escEscOnly p
  induction p with
  | nil => simp [byteExpand, pyReplace_nil]
  | cons c rest ih =>
    by_cases hesc : c = 125
    · subst hesc
      rw [byteExpand, escByte_esc, List.cons_append, List.cons_append,
        List.nil_append, pyReplace_cons, pyReplace_cons]
      simp only [List.isPrefixOf, Bool.and_eq_true, beq_iff_eq]
      norm_num [ih, byteExpand, escEscOnly_esc]
    · by_cases hflag : c = 126
      · subst hflag
        rw [byteExpand, escByte_flag, List.cons_append, List.cons_append,
          List.nil_append, pyReplace_cons]
        simp only [List.isPrefixOf, Bool.and_eq_true, beq_iff_eq]
        norm_num [ih, byteExpand, escEscOnly_other (by norm_num : (126 : Nat) ≠ 125)]
        all_goals simp
      · rw [byteExpand, escByte_other hesc hflag, List.cons_append,
          List.nil_append, pyReplace_cons]
        have hne : ([125, 94].isPrefixOf (c :: byteExpand escByte rest)) = false := by
          simp only [List.isPrefixOf, Bool.and_eq_false_iff, beq_eq_false_iff_ne]
          exact Or.inl (fun hc => hesc hc.symm)
        simp [hne, ih, byteExpand, escEscOnly_other hesc]

/-- The second unescape pass (`(ESC, ESC^ESC_MASK) ↦ ESC`) undoes the
remaining per-byte ESC escapes. -/
theorem unescape_second_pass (p : List Nat) :
    pyReplace (byteExpand escEscOnly p) [ESC, ESC ^^^ ESC_MASK] [ESC] = p := by
  rw [escMask_eq]
  show pyReplace (byteExpand escEscOnly p) [125, 93] [125] = p
  induction p with
  | nil => simp [byteExpand, pyReplace_nil]
  | cons c rest ih =>
    by_cases hesc : c = 125
    · subst hesc
      rw [byteExpand, escEscOnly_esc, List.cons_append, List.cons_append,
        List.nil_append, pyReplace_cons]
      simp only [List.isPrefixOf, Bool.and_eq_true, beq_iff_eq]
      norm_num [ih]
      all_goals simp
    · rw [byteExpand, escEscOnly_other hesc, List.cons_append,
        List.nil_append, pyReplace_cons]
      have hne : ([125, 93].isPrefixOf (c :: byteExpand escEscOnly rest)) = false := by
        simp only [List.isPrefixOf, Bool.and_eq_false_iff, beq_eq_false_iff_ne]
        exact Or.inl (fun hc => hesc hc.symm)
      simp [hne, ih]

/-- Both unescape passes applied to a per-byte-escaped string recover the
original string. -/
theorem unescape_byteExpand (p : List Nat) :
    unescape (byteExpand escByte p) = p := by
  rw [unescape, unescape_first_pass, unescape_second_pass]

end HDLC

/-- C3: HDLC escaping round-trips — the receiver's unescape applied to
`HDLC.escape(p)` yields `p` for every byte string `p`
(BackboneInterface.py lines 37-41 and 534-543). -/
theorem C3_hdlc_escape_roundtrip (p : List Nat) :
    HDLC.unescape (HDLC.escape p) = p := by
  rw [HDLC.escape_eq_byteExpand, HDLC.unescape_byteExpand]

namespace HDLC

/-- `escOk l` holds when every ESC byte (0x7D) in `l` is immediately
followed by `0x5D` or `0x5E`. -/
def escOk : List Nat → Bool
  | [] => true
  | [b] => b != 125
  | a :: b :: rest => (a != 125 || b == 93 || b == 94) && escOk (b :: rest)

theorem escOk_cons_ne {a : Nat} (h : a ≠ 125) (s : List Nat) :
    escOk (a :: s) = escOk s := by
  match s with
  | [] => simp [escOk, h]
  | c :: t => simp [escOk, h]

theorem escOk_escByte (b : Nat) (s : List Nat) :
    escOk (escByte b ++ s) = escOk s := by
  by_cases hesc : b = 125
  · subst hesc
    rw [escByte_esc]
    show escOk (125 :: 93 :: s) = escOk s
    rw [show escOk (125 :: 93 :: s) =
        ((125 != 125 || 93 == 93 || 93 == 94) && escOk (93 :: s)) from rfl]
    simp [escOk_cons_ne (by norm_num : (93 : Nat) ≠ 125)]
  · by_cases hflag : b = 126
    · subst hflag
      rw [escByte_flag]
      show escOk (125 :: 94 :: s) = escOk s
      rw [show escOk (125 :: 94 :: s) =
          ((125 != 125 || 94 == 93 || 94 == 94) && escOk (94 :: s)) from rfl]
      simp [escOk_cons_ne (by norm_num : (94 : Nat) ≠ 125)]
    · rw [escByte_other hesc hflag]
      exact escOk_cons_ne hesc s

theorem escOk_byteExpand (p : List Nat) : escOk (byteExpand escByte p) = true := by
  induction p with
  | nil => rfl
  | cons c rest ih => rw [byteExpand, escOk_escByte, ih]

theorem flag_not_mem_escByte (b : Nat) : (126 : Nat) ∉ escByte b := by
  by_cases hesc : b = 125
  · subst hesc; rw [escByte_esc]; simp
  · by_cases hflag : b = 126
    · subst hflag; rw [escByte_flag]; simp
    · rw [escByte_other hesc hflag]; simp [hflag, Ne.symm hflag]

theorem flag_not_mem_byteExpand (p : List Nat) :
    (126 : Nat) ∉ byteExpand escByte p := by
  induction p with
  | nil => simp [byteExpand]
  | cons c rest ih =>
    rw [byteExpand]
    intro hmem
    rcases List.mem_append.mp hmem with h | h
    · exact flag_not_mem_escByte c h
    · exact ih h

end HDLC

/-- C9: `HDLC.escape(p)` contains no FLAG byte, every ESC byte in it is
immediately followed by `0x5D` or `0x5E`, and consequently in the frame
`FLAG || escape(p) || FLAG` built by `process_outgoing` the FLAG bytes
occur only at the two frame boundaries. -/
theorem C9_escape_wellformed (p : List Nat) :
    (126 : Nat) ∉ HDLC.escape p ∧
    HDLC.escOk (HDLC.escape p) = true ∧
    (∀ i : Nat, (126 :: (HDLC.escape p ++ [126])).get? i = some 126 →
      i = 0 ∨ i = (HDLC.escape p).length + 1) := by
  rw [HDLC.escape_eq_byteExpand]
  refine ⟨HDLC.flag_not_mem_byteExpand p, HDLC.escOk_byteExpand p, ?_⟩
  intro i hi
  match i with
  | 0 => exact Or.inl rfl
  | Nat.succ j =>
    right
    rw [List.get?_cons_succ] at hi
    by_cases hj : j < (HDLC.byteExpand HDLC.escByte p).length
    · exfalso
      rw [List.get?_append hj] at hi
      exact HDLC.flag_not_mem_byteExpand p (List.get?_mem hi)
    · have hjlen : j < (HDLC.byteExpand HDLC.escByte p).length + 1 := by
        have := List.get?_eq_some.mp hi
        simpa using this.1
      omega

namespace BackboneClient

/-- Modelled from the spec: `RNS.Reticulum.HEADER_MINSIZE` (the minimum
packet header length) is defined outside src/; its value in Reticulum is
18 bytes (2 header bytes plus one 16-byte truncated destination hash). -/
def HEADER_MINSIZE : Nat := 18

/-- Python `bytes.find(b)`: index of the first occurrence, if any
(`find` returns -1 when absent; modelled as `none`). -/
def findFlag : List Nat → Option Nat
  | [] => none
  | b :: rest => if b = 126 then some 0 else (findFlag rest).map (· + 1)

theorem findFlag_lt_length {l : List Nat} {i : Nat} (h : findFlag l = some i) :
    i < l.length := by
  induction l generalizing i with
  | nil => simp [findFlag] at h
  | cons b rest ih =>
    rw [findFlag] at h
    by_cases hb : b = 126
    · rw [if_pos hb] at h
      simp only [Option.some_inj] at h
      subst h
      simp
    · rw [if_neg hb] at h
      cases hmap : findFlag rest with
      | none => rw [hmap] at h; simp at h
      | some j =>
        rw [hmap] at h
        simp only [Option.map_some', Option.some_inj] at h
        have := ih hmap
        simp only [List.length_cons]
        omega

/-- The frame-extraction loop of `BackboneClientInterface.receive`
(BackboneInterface.py lines 531-547): repeatedly locate two successive
FLAG bytes, unescape the bytes strictly between them, and keep the
buffer from the closing FLAG onwards.  Returns the list of unescaped
frames in extraction order (before the header-size filter) together with
the final frame buffer. -/
def hdlcExtract (buf : List Nat) : List (List Nat) × List Nat :=
  match hfs : findFlag buf with
  | none => ([], buf)
  | some fs =>
    match findFlag (buf.drop (fs + 1)) with
    | none => ([], buf)
    | some k =>
      let frame := HDLC.unescape ((buf.drop (fs + 1)).take k)
      let r := hdlcExtract (buf.drop (fs + 1 + k))
      (frame :: r.1, r.2)
termination_by buf.length
decreasing_by
  have := findFlag_lt_length hfs
  simp only [List.length_drop]
  omega

/-- `BackboneClientInterface.receive` with the header-size filter of line
541 (`if len(frame) > RNS.Reticulum.HEADER_MINSIZE`): an unescaped frame
is passed to `process_incoming` only when it is strictly longer than
`headerMin`; shorter frames are dropped with no other effect.  Returns
the delivered frames and the final frame buffer. -/
def receive (headerMin : Nat) (buf : List Nat) : List (List Nat) × List Nat :=
  match hfs : findFlag buf with
  | none => ([], buf)
  | some fs =>
    match findFlag (buf.drop (fs + 1)) with
    | none => ([], buf)
    | some k =>
      let frame := HDLC.unescape ((buf.drop (fs + 1)).take k)
      let r := receive headerMin (buf.drop (fs + 1 + k))
      (if headerMin < frame.length then frame :: r.1 else r.1, r.2)
termination_by buf.length
decreasing_by
  have := findFlag_lt_length hfs
  simp only [List.length_drop]
  omega

theorem hdlcExtract_eqn_none {buf : List Nat}
    (h : findFlag buf = none) : hdlcExtract buf = ([], buf) := by
  rw [hdlcExtract]
  split
  · rfl
  next fs heq =>
    rw [h] at heq
    cases heq

theorem hdlcExtract_eqn_one {buf : List Nat} {fs : Nat}
    (h1 : findFlag buf = some fs)
    (h2 : findFlag (buf.drop (fs + 1)) = none) :
    hdlcExtract buf = ([], buf) := by
  rw [hdlcExtract]
  split
  · rfl
  next fs' heq =>
    rw [h1] at heq
    injection heq with hfs
    subst hfs
    split
    · rfl
    next k' heq2 =>
      rw [h2] at heq2
      cases heq2

theorem hdlcExtract_eqn_cons {buf : List Nat} {fs k : Nat}
    (h1 : findFlag buf = some fs)
    (h2 : findFlag (buf.drop (fs + 1)) = some k) :
    hdlcExtract buf =
      (HDLC.unescape ((buf.drop (fs + 1)).take k) ::
          (hdlcExtract (buf.drop (fs + 1 + k))).1,
        (hdlcExtract (buf.drop (fs + 1 + k))).2) := by
  rw [hdlcExtract]
  split
  · next heq =>
    rw [h1] at heq
    cases heq
  next fs' heq =>
    rw [h1] at heq
    injection heq with hfs
    subst hfs
    split
    · next heq2 =>
      rw [h2] at heq2
      cases heq2
    next k' heq2 =>
      rw [h2] at heq2
      injection heq2 with hk
      subst hk
      rfl

theorem receive_eqn_none {buf : List Nat} (hm : Nat)
    (h : findFlag buf = none) : receive hm buf = ([], buf) := by
  rw [receive]
  split
  · rfl
  next fs heq =>
    rw [h] at heq
    cases heq

theorem receive_eqn_one {buf : List Nat} {fs : Nat} (hm : Nat)
    (h1 : findFlag buf = some fs)
    (h2 : findFlag (buf.drop (fs + 1)) = none) :
    receive hm buf = ([], buf) := by
  rw [receive]
  split
  · rfl
  next fs' heq =>
    rw [h1] at heq
    injection heq with hfs
    subst hfs
    split
    · rfl
    next k' heq2 =>
      rw [h2] at heq2
      cases heq2

theorem receive_eqn_cons {buf : List Nat} {fs k : Nat} (hm : Nat)
    (h1 : findFlag buf = some fs)
    (h2 : findFlag (buf.drop (fs + 1)) = some k) :
    receive hm buf =
      (if hm < (HDLC.unescape ((buf.drop (fs + 1)).take k)).length
        then HDLC.unescape ((buf.drop (fs + 1)).take k) ::
          (receive hm (buf.drop (fs + 1 + k))).1
        else (receive hm (buf.drop (fs + 1 + k))).1,
        (receive hm (buf.drop (fs + 1 + k))).2) := by
  rw [receive]
  split
  · next heq =>
    rw [h1] at heq
    cases heq
  next fs' heq =>
    rw [h1] at heq
    injection heq with hfs
    subst hfs
    split
    · next heq2 =>
      rw [h2] at heq2
      cases heq2
    next k' heq2 =>
      rw [h2] at heq2
      injection heq2 with hk
      subst hk
      rfl

end BackboneClient

/-- C6 (amended): the frames delivered to `process_incoming` by the
receive loop are exactly the extracted unescaped frames whose length is
STRICTLY greater than the minimum packet header length, and the final
frame buffer does not depend on the filter (BackboneInterface.py line 541
tests `len(frame) > HEADER_MINSIZE`, so a frame of exactly the minimum
header length is dropped). -/
theorem C6_amended_receive_filter (headerMin : Nat) (buf : List Nat) :
    BackboneClient.receive headerMin buf =
      ((BackboneClient.hdlcExtract buf).1.filter fun f => headerMin < f.length,
        (BackboneClient.hdlcExtract buf).2) := by
  induction buf using BackboneClient.hdlcExtract.induct with
  | case1 buf hfs =>
    rw [BackboneClient.receive_eqn_none _ hfs,
      BackboneClient.hdlcExtract_eqn_none hfs]
    simp
  | case2 buf fs hfs hk =>
    rw [BackboneClient.receive_eqn_one _ hfs hk,
      BackboneClient.hdlcExtract_eqn_one hfs hk]
    simp
  | case3 buf fs hfs k hk ih =>
    rw [BackboneClient.receive_eqn_cons _ hfs hk,
      BackboneClient.hdlcExtract_eqn_cons hfs hk]
    simp only [ih, List.filter_cons]
    by_cases hlen :
        headerMin < (HDLC.unescape ((buf.drop (fs + 1)).take k)).length
    · simp [hlen]
    · simp [hlen]

/-- C6 counterexample: a frame whose unescaped length is exactly
`HEADER_MINSIZE` (18 bytes here) is "not shorter than" the minimum packet
header, yet `receive` drops it and delivers nothing, contradicting the
claim that such a frame is delivered. -/
theorem C6_counterexample :
    (BackboneClient.receive BackboneClient.HEADER_MINSIZE
        (126 :: List.replicate 18 1 ++ [126])).1 = [] ∧
    (BackboneClient.hdlcExtract
        (126 :: List.replicate 18 1 ++ [126])).1 =
      [List.replicate 18 1] ∧
    BackboneClient.HEADER_MINSIZE ≤ (List.replicate 18 (1 : Nat)).length := by
  have hfr : HDLC.unescape (List.replicate 18 1) = List.replicate 18 1 := by
    have hplain : List.replicate 18 (1 : Nat) =
        HDLC.byteExpand HDLC.escByte (List.replicate 18 1) := by decide
    conv_lhs => rw [hplain]
    rw [HDLC.unescape_byteExpand]
  have h1 : BackboneClient.findFlag (126 :: List.replicate 18 1 ++ [126]) =
      some 0 := by decide
  have h2 : BackboneClient.findFlag
      ((126 :: List.replicate 18 1 ++ [126]).drop (0 + 1)) = some 18 := by decide
  have h3 : ((126 :: List.replicate 18 1 ++ [126]).drop (0 + 1)).take 18 =
      List.replicate 18 1 := by decide
  have h4 : (126 :: List.replicate 18 1 ++ [126]).drop (0 + 1 + 18) =
      [126] := by decide
  have h5 : BackboneClient.findFlag ([126] : List Nat) = some 0 := by decide
  have h6 : BackboneClient.findFlag (([126] : List Nat).drop (0 + 1)) =
      none := by decide
  have hrecTail : BackboneClient.receive BackboneClient.HEADER_MINSIZE [126] =
      ([], [126]) :=
    BackboneClient.receive_eqn_one _ h5 h6
  have hextTail : BackboneClient.hdlcExtract [126] = ([], [126]) :=
    BackboneClient.hdlcExtract_eqn_one h5 h6
  refine ⟨?_, ?_, by decide⟩
  · rw [BackboneClient.receive_eqn_cons _ h1 h2, h3, h4, hrecTail, hfr]
    simp [BackboneClient.HEADER_MINSIZE]
  · rw [BackboneClient.hdlcExtract_eqn_cons h1 h2, h3, h4, hextTail, hfr]


namespace Resource

/-- `Resource.WINDOW` (Resource.py line 58): initial window size. -/
def WINDOW : Int := 4

/-- `Resource.WINDOW_MIN` (line 61). -/
def WINDOW_MIN : Int := 2

/-- `Resource.WINDOW_MAX_SLOW` (line 64). -/
def WINDOW_MAX_SLOW : Int := 10

/-- `Resource.WINDOW_MAX_VERY_SLOW` (line 67). -/
def WINDOW_MAX_VERY_SLOW : Int := 4

/-- `Resource.WINDOW_MAX_FAST` (line 70). -/
def WINDOW_MAX_FAST : Int := 75

/-- `Resource.WINDOW_FLEXIBILITY` (line 99). -/
def WINDOW_FLEXIBILITY : Int := 4

/-- The four adaptive-window variables of a receiver resource. -/
structure WindowState where
  window : Int
  window_min : Int
  window_max : Int
  window_flexibility : Int
deriving DecidableEq

/-- Receiver window initialisation in `Resource.accept` (lines 195-198 and
219-222): defaults `WINDOW`, `WINDOW_MAX_SLOW`, `WINDOW_MIN`,
`WINDOW_FLEXIBILITY`, then `window := previous_window` when the link
supplies a truthy prior-resource window hint. -/
def acceptWindowInit (previous_window : Option Int) : WindowState :=
  let base : WindowState :=
    { window := WINDOW, window_min := WINDOW_MIN,
      window_max := WINDOW_MAX_SLOW, window_flexibility := WINDOW_FLEXIBILITY }
  match previous_window with
  | none => base
  | some w => if w ≠ 0 then { base with window := w } else base

/-- Window growth on a fully-satisfied request round (`receive_part`
lines 884-887): the `window_min` increment is nested inside
`window < window_max`. -/
def growWindow (s : WindowState) : WindowState :=
  if s.window < s.window_max then
    let s1 := { s with window := s.window + 1 }
    if (s1.window - s1.window_min) > (s1.window_flexibility - 1) then
      { s1 with window_min := s1.window_min + 1 }
    else s1
  else s

/-- Window shrink on a timeout-triggered retry (`__watchdog_job` lines
607-612): all three decrements are nested inside `window > window_min`. -/
def watchdogShrink (s : WindowState) : WindowState :=
  if s.window > s.window_min then
    let s1 := { s with window := s.window - 1 }
    if s1.window_max > s1.window_min then
      let s2 := { s1 with window_max := s1.window_max - 1 }
      if (s2.window_max - s2.window) > (s2.window_flexibility - 1) then
        { s2 with window_max := s2.window_max - 1 }
      else s2
    else s1
  else s

/-- Promotion of `window_max` to `WINDOW_MAX_FAST` when the fast-rate
threshold is reached (`receive_part` lines 839-840 and 901-902). -/
def promoteWindowMax (s : WindowState) : WindowState :=
  { s with window_max := WINDOW_MAX_FAST }

/-- Demotion of `window_max` to `WINDOW_MAX_VERY_SLOW` when the very-slow
threshold is reached (`receive_part` lines 907-908). -/
def demoteWindowMax (s : WindowState) : WindowState :=
  { s with window_max := WINDOW_MAX_VERY_SLOW }

/-- C7's wording of the timeout-retry update, read literally: three
sequential, INDEPENDENT conditionals.  This definition follows the
claim's words, for comparison with `watchdogShrink`, which is translated
from the source. -/
def watchdogShrinkClaimSequential (s : WindowState) : WindowState :=
  let s1 := if s.window > s.window_min then
    { s with window := s.window - 1 } else s
  let s2 := if s1.window_max > s1.window_min then
    { s1 with window_max := s1.window_max - 1 } else s1
  if (s2.window_max - s2.window) > (s2.window_flexibility - 1) then
    { s2 with window_max := s2.window_max - 1 }
  else s2

/-- C7 (amended): the update with the outer guard made explicit — when
`window ≤ window_min` nothing changes at all; otherwise the two
`window_max` decrements read sequentially after the `window` decrement. -/
def watchdogShrinkAmended (s : WindowState) : WindowState :=
  if s.window ≤ s.window_min then s
  else
    let s1 := { s with window := s.window - 1 }
    let s2 := if s1.window_max > s1.window_min then
      { s1 with window_max := s1.window_max - 1 } else s1
    if (s2.window_max - s2.window) > (s2.window_flexibility - 1) then
      { s2 with window_max := s2.window_max - 1 }
    else s2

end Resource

/-- C7 counterexample: the state (window 2, min 2, max 6, flexibility 4)
is reached from the `accept` initialisation by two timeout retries; on
the next timeout retry the code leaves the state unchanged (all updates
are nested under `window > window_min`), while the claim's sequential
reading would still decrement `window_max`. -/
theorem C7_counterexample :
    Resource.watchdogShrink (Resource.watchdogShrink
        (Resource.acceptWindowInit none)) =
      { window := 2, window_min := 2, window_max := 6,
        window_flexibility := 4 } ∧
    Resource.watchdogShrinkClaimSequential
        { window := 2, window_min := 2, window_max := 6,
          window_flexibility := 4 } ≠
      Resource.watchdogShrink
        { window := 2, window_min := 2, window_max := 6,
          window_flexibility := 4 } := by
  decide

/-- C7 (amended): on a timeout-triggered retry the watchdog's window
update equals the guarded-sequential description — no change at all when
`window ≤ window_min`, and otherwise `window -= 1`, then `window_max -= 1`
if `window_max > window_min`, then `window_max -= 1` again if the
resulting `window_max - window` exceeds `window_flexibility - 1`; the
other window variables are untouched. -/
theorem C7_amended_shrink_eq (s : Resource.WindowState)
    (hflex : 1 ≤ s.window_flexibility) :
    Resource.watchdogShrink s = Resource.watchdogShrinkAmended s := by
  rcases s with ⟨w, wn, wx, fl⟩
  simp only [Resource.watchdogShrink, Resource.watchdogShrinkAmended] at *
  split_ifs <;> (try dsimp only at *) <;>
    simp only [Resource.WindowState.mk.injEq] <;> omega

/-- A concrete window state used by witnesses: one timeout retry after
the clean `accept` initialisation. -/
def shrinkWitnessState : Resource.WindowState :=
  { window := 3, window_min := 2, window_max := 8, window_flexibility := 4 }

/-- Witness for `C7_amended_shrink_eq` at a concrete state. -/
theorem C7_amended_shrink_eq_witness :
    (1 : Int) ≤ shrinkWitnessState.window_flexibility ∧
    Resource.watchdogShrink shrinkWitnessState =
      Resource.watchdogShrinkAmended shrinkWitnessState :=
  ⟨by decide, C7_amended_shrink_eq _ (by decide)⟩

namespace Resource

/-- Window states reachable through the adjustments listed by C1, with
the restrictions the amended claim imposes: initialisation uses no
prior-window hint or a hint between `WINDOW_MIN` and `WINDOW_MAX_SLOW`,
and the demotion adjustment is excluded. -/
inductive WindowReach : WindowState → Prop
  | init (previous_window : Option Int)
      (h : ∀ w, previous_window = some w → WINDOW_MIN ≤ w ∧ w ≤ WINDOW_MAX_SLOW) :
      WindowReach (acceptWindowInit previous_window)
  | grow {s : WindowState} : WindowReach s → WindowReach (growWindow s)
  | shrink {s : WindowState} : WindowReach s → WindowReach (watchdogShrink s)
  | promote {s : WindowState} : WindowReach s → WindowReach (promoteWindowMax s)

/-- The inductive invariant used to prove the amended C1: window ordering,
a cap on `window_max`, and the constant flexibility. -/
def WindowInv (s : WindowState) : Prop :=
  s.window_min ≤ s.window ∧ s.window ≤ s.window_max ∧
    s.window_max ≤ WINDOW_MAX_FAST ∧ s.window_flexibility = WINDOW_FLEXIBILITY

theorem windowInv_init (previous_window : Option Int)
    (h : ∀ w, previous_window = some w → WINDOW_MIN ≤ w ∧ w ≤ WINDOW_MAX_SLOW) :
    WindowInv (acceptWindowInit previous_window) := by
  cases previous_window with
  | none => exact ⟨by decide, by decide, by decide, rfl⟩
  | some w =>
    obtain ⟨h1, h2⟩ := h w rfl
    simp only [WINDOW_MIN, WINDOW_MAX_SLOW] at h1 h2
    by_cases hw : w = 0
    · simp [acceptWindowInit, hw, WindowInv, WINDOW, WINDOW_MIN,
        WINDOW_MAX_SLOW, WINDOW_MAX_FAST, WINDOW_FLEXIBILITY]
    · simp only [acceptWindowInit, if_pos hw, ne_eq, hw, not_false_iff, if_true]
      refine ⟨?_, ?_, ?_, rfl⟩ <;>
        simp only [WINDOW_MIN, WINDOW_MAX_SLOW, WINDOW_MAX_FAST] <;> omega

theorem windowInv_grow {s : WindowState} (h : WindowInv s) :
    WindowInv (growWindow s) := by
  rcases s with ⟨w, wn, wx, fl⟩
  obtain ⟨h1, h2, h3, h4⟩ := h
  simp only [WINDOW_MAX_FAST, WINDOW_FLEXIBILITY] at *
  simp only [growWindow, WindowInv, WINDOW_MAX_FAST, WINDOW_FLEXIBILITY]
  split_ifs <;> (try dsimp only at *) <;>
    refine ⟨by omega, by omega, by omega, by omega⟩

theorem windowInv_shrink {s : WindowState} (h : WindowInv s) :
    WindowInv (watchdogShrink s) := by
  rcases s with ⟨w, wn, wx, fl⟩
  obtain ⟨h1, h2, h3, h4⟩ := h
  simp only [WINDOW_MAX_FAST, WINDOW_FLEXIBILITY] at *
  simp only [watchdogShrink, WindowInv, WINDOW_MAX_FAST, WINDOW_FLEXIBILITY]
  split_ifs <;> (try dsimp only at *) <;>
    refine ⟨by omega, by omega, by omega, by omega⟩

theorem windowInv_promote {s : WindowState} (h : WindowInv s) :
    WindowInv (promoteWindowMax s) := by
  rcases s with ⟨w, wn, wx, fl⟩
  obtain ⟨h1, h2, h3, h4⟩ := h
  simp only [WINDOW_MAX_FAST, WINDOW_FLEXIBILITY] at *
  exact ⟨by simpa [promoteWindowMax] using h1,
    by simp only [promoteWindowMax, WINDOW_MAX_FAST]; omega,
    by simp [promoteWindowMax, WINDOW_MAX_FAST],
    by simpa [promoteWindowMax, WINDOW_FLEXIBILITY] using h4⟩

theorem windowInv_of_reach {s : WindowState} (h : WindowReach s) : WindowInv s := by
  induction h with
  | init previous_window hp => exact windowInv_init previous_window hp
  | grow _ ih => exact windowInv_grow ih
  | shrink _ ih => exact windowInv_shrink ih
  | promote _ ih => exact windowInv_promote ih

end Resource

/-- C1 counterexample: the claim's own transition set violates both
inequalities at reachable states.  (a) Six fully-satisfied growth rounds
from the clean `accept` initialisation leave `window_max - window_min =
3 < 4 = window_flexibility`.  (b) Two growth rounds followed by the
demotion of `window_max` to `WINDOW_MAX_VERY_SLOW` leave `window = 6 >
4 = window_max`.  (c) Initialisation with a prior-window hint of 75 (a
legal final window of a fast previous transfer) leaves `window = 75 >
10 = window_max`. -/
theorem C1_counterexample :
    (¬ ((Resource.growWindow^[6]) (Resource.acceptWindowInit none)).window_max -
        ((Resource.growWindow^[6]) (Resource.acceptWindowInit none)).window_min ≥
        ((Resource.growWindow^[6]) (Resource.acceptWindowInit none)).window_flexibility) ∧
    (¬ (Resource.demoteWindowMax ((Resource.growWindow^[2])
          (Resource.acceptWindowInit none))).window ≤
        (Resource.demoteWindowMax ((Resource.growWindow^[2])
          (Resource.acceptWindowInit none))).window_max) ∧
    (¬ (Resource.acceptWindowInit (some 75)).window ≤
        (Resource.acceptWindowInit (some 75)).window_max) := by
  refine ⟨?_, ?_, ?_⟩ <;> decide

/-- C1 (amended): for every state reachable through receiver
initialisation (with no prior-window hint, or a hint between
`WINDOW_MIN` and `WINDOW_MAX_SLOW`), growth on a fully-satisfied request
round, shrink on a timeout-triggered retry, and promotion of
`window_max` to `WINDOW_MAX_FAST`, the inequality
`window_min ≤ window ≤ window_max` holds.  The flexibility inequality
`window_max - window_min ≥ window_flexibility` does not hold in general,
and demotion of `window_max` to `WINDOW_MAX_VERY_SLOW` can leave
`window > window_max` (see the counterexample). -/
theorem C1_amended_window_invariant (s : Resource.WindowState)
    (h : Resource.WindowReach s) :
    s.window_min ≤ s.window ∧ s.window ≤ s.window_max := by
  obtain ⟨h1, h2, _, _⟩ := Resource.windowInv_of_reach h
  exact ⟨h1, h2⟩

/-- Witness for `C1_amended_window_invariant`: one growth round after the
clean initialisation. -/
theorem C1_amended_window_invariant_witness :
    Resource.WindowReach (Resource.growWindow (Resource.acceptWindowInit none)) ∧
    ((Resource.growWindow (Resource.acceptWindowInit none)).window_min ≤
        (Resource.growWindow (Resource.acceptWindowInit none)).window ∧
      (Resource.growWindow (Resource.acceptWindowInit none)).window ≤
        (Resource.growWindow (Resource.acceptWindowInit none)).window_max) :=
  ⟨Resource.WindowReach.grow
      (Resource.WindowReach.init none (fun w hw => nomatch hw)),
    C1_amended_window_invariant _
      (Resource.WindowReach.grow
        (Resource.WindowReach.init none (fun w hw => nomatch hw)))⟩

namespace Resource

/-- Status constant `NONE` (Resource.py line 147). -/
def NONE : Nat := 0x00

/-- Status constant `QUEUED` (line 148). -/
def QUEUED : Nat := 0x01

/-- Status constant `ADVERTISED` (line 149). -/
def ADVERTISED : Nat := 0x02

/-- Status constant `TRANSFERRING` (line 150). -/
def TRANSFERRING : Nat := 0x03

/-- Status constant `AWAITING_PROOF` (line 151). -/
def AWAITING_PROOF : Nat := 0x04

/-- Status constant `ASSEMBLING` (line 152). -/
def ASSEMBLING : Nat := 0x05

/-- Status constant `COMPLETE` (line 153). -/
def COMPLETE : Nat := 0x06

/-- Status constant `FAILED` (line 154). -/
def FAILED : Nat := 0x07

/-- Status constant `CORRUPT` (line 155). -/
def CORRUPT : Nat := 0x08

/-- Status constant `REJECTED` (line 156) — the source reuses 0x00. -/
def REJECTED : Nat := 0x00

/-- The resource fields read and written by `Resource.cancel`, with the
collaborator facts it branches on (`link.status == ACTIVE`,
`callback != None`). -/
structure CancelState where
  status : Nat
  initiator : Bool
  linkActive : Bool
  hasCallback : Bool
deriving DecidableEq

/-- Observable side effects of one `cancel()` call, in program order. -/
inductive CancelEff where
  | sentICL
  | cancelOutgoingRes
  | cancelIncomingRes
  | resourceConcluded
  | callbackInvoked
deriving DecidableEq

/-- `Resource.cancel` (lines 1059-1081): no-op unless `status < COMPLETE`;
otherwise set status FAILED, send the ICL cancel packet when this side is
the initiator and the link is active, deregister the resource from the
link, and — when a completion callback is set — mark the resource
concluded and invoke the callback. -/
def cancel (s : CancelState) : CancelState × List CancelEff :=
  if s.status < COMPLETE then
    ({ s with status := FAILED },
      (if s.initiator then
        (if s.linkActive then [CancelEff.sentICL] else []) ++
          [CancelEff.cancelOutgoingRes]
      else [CancelEff.cancelIncomingRes]) ++
      (if s.hasCallback then
        [CancelEff.resourceConcluded, CancelEff.callbackInvoked] else []))
  else (s, [])

end Resource

/-- C2: `cancel()` is idempotent.  For every resource with status below
COMPLETE, the first call sets status FAILED and invokes the completion
callback at most once; the second call leaves the status FAILED, sends
no packet, and performs no effect at all, so two calls yield exactly one
callback invocation (when a callback is set) and final status FAILED. -/
theorem C2_cancel_idempotent (s : Resource.CancelState)
    (h : s.status < Resource.COMPLETE) :
    (Resource.cancel s).1.status = Resource.FAILED ∧
    ((Resource.cancel s).2.count Resource.CancelEff.callbackInvoked ≤ 1) ∧
    Resource.cancel ((Resource.cancel s).1) = ((Resource.cancel s).1, []) ∧
    (((Resource.cancel s).2 ++
        (Resource.cancel ((Resource.cancel s).1)).2).count
        Resource.CancelEff.callbackInvoked =
      if s.hasCallback then 1 else 0) ∧
    (Resource.cancel ((Resource.cancel s).1)).1.status = Resource.FAILED := by
  rcases s with ⟨st, ini, la, hc⟩
  simp only [Resource.COMPLETE] at h
  cases ini <;> cases la <;> cases hc <;>
    simp [Resource.cancel, Resource.COMPLETE, Resource.FAILED, h,
      List.count_append, List.count_cons]

/-- Witness for `C2_cancel_idempotent`: a transferring initiator resource
with an active link and a callback. -/
theorem C2_cancel_idempotent_witness :
    (Resource.TRANSFERRING < Resource.COMPLETE) ∧
    ((Resource.cancel ⟨Resource.TRANSFERRING, true, true, true⟩).1.status =
        Resource.FAILED ∧
      ((Resource.cancel ⟨Resource.TRANSFERRING, true, true, true⟩).2.count
          Resource.CancelEff.callbackInvoked ≤ 1) ∧
      Resource.cancel ((Resource.cancel
          ⟨Resource.TRANSFERRING, true, true, true⟩).1) =
        ((Resource.cancel ⟨Resource.TRANSFERRING, true, true, true⟩).1, []) ∧
      (((Resource.cancel ⟨Resource.TRANSFERRING, true, true, true⟩).2 ++
          (Resource.cancel ((Resource.cancel
            ⟨Resource.TRANSFERRING, true, true, true⟩).1)).2).count
          Resource.CancelEff.callbackInvoked =
        if (⟨Resource.TRANSFERRING, true, true, true⟩ :
            Resource.CancelState).hasCallback then 1 else 0) ∧
      (Resource.cancel ((Resource.cancel
          ⟨Resource.TRANSFERRING, true, true, true⟩).1)).1.status =
        Resource.FAILED) :=
  ⟨by decide, C2_cancel_idempotent _ (by decide)⟩

namespace Resource

/-- Modelled from the spec: `RNS.Identity.HASHLENGTH` is defined outside
src/; the spec fixes `FULL_HASH(x)` at 32 bytes, i.e. 256 bits. -/
def HASHLENGTH : Nat := 256

/-- The sender-resource fields read or written by `validate_proof`
(`expected_proof`, `status`, segment bookkeeping), together with whether
a completion callback is set and whether the per-segment references
(data, metadata, parts, input_file, link, req_hashlist, hashmap) have
been released for segment chaining. -/
structure SenderState where
  status : Nat
  expected_proof : List Nat
  segment_index : Nat
  total_segments : Nat
  hasCallback : Bool
  segmentRefsCleared : Bool
deriving DecidableEq

/-- Observable side effects of one `validate_proof` call, in program
order. -/
inductive ProofEff where
  | resourceConcluded
  | callbackInvoked
  | inputFileClosed
  | nextSegmentAdvertised
deriving DecidableEq

/-- `Resource.validate_proof` (lines 766-809): no-op when status is
FAILED; otherwise, when `proof_data` is exactly `HASHLENGTH//8*2` bytes
and its trailing `HASHLENGTH//8` bytes equal `expected_proof`, set
status COMPLETE and signal conclusion — invoking the callback and closing
the input stream on the final segment, or releasing the per-segment
references and advertising the prepared next segment otherwise.  On any
length or proof mismatch nothing changes. -/
def validate_proof (s : SenderState) (proof_data : List Nat) :
    SenderState × List ProofEff :=
  if s.status = FAILED then (s, [])
  else if proof_data.length = HASHLENGTH / 8 * 2 then
    if proof_data.drop (HASHLENGTH / 8) = s.expected_proof then
      if s.segment_index = s.total_segments then
        ({ s with status := COMPLETE },
          [ProofEff.resourceConcluded] ++
            (if s.hasCallback then [ProofEff.callbackInvoked] else []) ++
            [ProofEff.inputFileClosed])
      else
        ({ s with status := COMPLETE, segmentRefsCleared := true },
          [ProofEff.resourceConcluded, ProofEff.nextSegmentAdvertised])
    else (s, [])
  else (s, [])

end Resource

/-- C5: for every sender resource whose status is not FAILED,
`validate_proof(proof_data)` sets status COMPLETE exactly when
`proof_data` is 64 bytes long and its trailing 32 bytes equal
`expected_proof`; when the length or the trailing bytes do not match,
the call changes no field of the resource and has no effect. -/
theorem C5_validate_proof (s : Resource.SenderState) (pd : List Nat)
    (h : s.status ≠ Resource.FAILED) :
    ((pd.length = Resource.HASHLENGTH / 8 * 2 ∧
        pd.drop (Resource.HASHLENGTH / 8) = s.expected_proof) →
      (Resource.validate_proof s pd).1.status = Resource.COMPLETE) ∧
    (¬ (pd.length = Resource.HASHLENGTH / 8 * 2 ∧
        pd.drop (Resource.HASHLENGTH / 8) = s.expected_proof) →
      Resource.validate_proof s pd = (s, [])) := by
  constructor
  · rintro ⟨hlen, hproof⟩
    by_cases hseg : s.segment_index = s.total_segments <;>
      simp [Resource.validate_proof, h, hlen, hproof, hseg]
  · intro hmis
    by_cases hlen : pd.length = Resource.HASHLENGTH / 8 * 2
    · have hproof : ¬ pd.drop (Resource.HASHLENGTH / 8) = s.expected_proof :=
        fun hp => hmis ⟨hlen, hp⟩
      simp [Resource.validate_proof, h, hlen, hproof]
    · simp [Resource.validate_proof, h, hlen]

/-- Witness for `C5_validate_proof`: an AWAITING_PROOF final-segment
sender receiving a correct 64-byte proof. -/
theorem C5_validate_proof_witness :
    ((⟨Resource.AWAITING_PROOF, List.replicate 32 7, 1, 1, true, false⟩ :
        Resource.SenderState).status ≠ Resource.FAILED) ∧
    (((List.replicate 64 7).length = Resource.HASHLENGTH / 8 * 2 ∧
        (List.replicate 64 7).drop (Resource.HASHLENGTH / 8) =
          (⟨Resource.AWAITING_PROOF, List.replicate 32 7, 1, 1, true, false⟩ :
            Resource.SenderState).expected_proof) →
      (Resource.validate_proof
          ⟨Resource.AWAITING_PROOF, List.replicate 32 7, 1, 1, true, false⟩
          (List.replicate 64 7)).1.status = Resource.COMPLETE) ∧
    (¬ ((List.replicate 64 7).length = Resource.HASHLENGTH / 8 * 2 ∧
        (List.replicate 64 7).drop (Resource.HASHLENGTH / 8) =
          (⟨Resource.AWAITING_PROOF, List.replicate 32 7, 1, 1, true, false⟩ :
            Resource.SenderState).expected_proof) →
      Resource.validate_proof
          ⟨Resource.AWAITING_PROOF, List.replicate 32 7, 1, 1, true, false⟩
          (List.replicate 64 7) =
        (⟨Resource.AWAITING_PROOF, List.replicate 32 7, 1, 1, true, false⟩, [])) :=
  ⟨by decide, C5_validate_proof _ _ (by decide)⟩

namespace Resource

/-- `Resource.MAPHASH_LEN` (line 102): bytes per map hash. -/
def MAPHASH_LEN : Nat := 4

end Resource

namespace ResourceAdvertisement

/-- `ResourceAdvertisement.OVERHEAD` (line 1210). -/
def OVERHEAD : Nat := 134

/-- Python `True`/`False` as the integers used in the flag byte. -/
def boolBit (b : Bool) : Nat := if b then 1 else 0

/-- The flag byte of `ResourceAdvertisement.__init__` (line 1282):
`0x00 | x << 5 | p << 4 | u << 3 | s << 2 | c << 1 | e`. -/
def flagByte (e c s u p x : Bool) : Nat :=
  0x00 ||| boolBit x <<< 5 ||| boolBit p <<< 4 ||| boolBit u <<< 3 |||
    boolBit s <<< 2 ||| boolBit c <<< 1 ||| boolBit e

/-- The resource attributes read by `ResourceAdvertisement.__init__`
(lines 1256-1279). -/
structure ResFields where
  size : Nat
  total_size : Nat
  parts_len : Nat
  hash : List Nat
  random_hash : List Nat
  original_hash : List Nat
  hashmap : List Nat
  compressed : Bool
  encrypted : Bool
  split : Bool
  has_metadata : Bool
  segment_index : Nat
  total_segments : Nat
  request_id : Option (List Nat)
  is_response : Bool

/-- The advertisement record built by `ResourceAdvertisement.__init__`. -/
structure Adv where
  t : Nat
  d : Nat
  n : Nat
  h : List Nat
  r : List Nat
  o : List Nat
  m : List Nat
  c : Bool
  e : Bool
  s : Bool
  x : Bool
  i : Nat
  l : Nat
  q : Option (List Nat)
  u : Bool
  p : Bool
  f : Nat
deriving DecidableEq

/-- `ResourceAdvertisement.__init__(resource)` (lines 1253-1282). -/
def mkAdv (res : ResFields) : Adv :=
  let u := res.request_id.isSome && !res.is_response
  let p := res.request_id.isSome && res.is_response
  { t := res.size, d := res.total_size, n := res.parts_len,
    h := res.hash, r := res.random_hash, o := res.original_hash,
    m := res.hashmap, c := res.compressed, e := res.encrypted,
    s := res.split, x := res.has_metadata, i := res.segment_index,
    l := res.total_segments, q := res.request_id, u := u, p := p,
    f := flagByte res.encrypted res.compressed res.split u p
      res.has_metadata }

/-- The dictionary serialized by `ResourceAdvertisement.pack` (lines
1316-1328).  Modelled from the spec: the vendored `umsgpack`
packb/unpackb pair is outside src/ and round-trips every dictionary, so
the serialization is modelled as the identity on this record. -/
structure AdvDict where
  t : Nat
  d : Nat
  n : Nat
  h : List Nat
  r : List Nat
  o : List Nat
  i : Nat
  l : Nat
  q : Option (List Nat)
  f : Nat
  m : List Nat
deriving DecidableEq

/-- The hashmap slice built by `pack` (lines 1309-1314): the
concatenation of `m[i*MAPHASH_LEN:(i+1)*MAPHASH_LEN]` for `i` from
`hashmap_start` to `hashmap_end`. -/
def sliceConcat (m : List Nat) (hstart hend : Nat) : List Nat :=
  (List.range' hstart (hend - hstart)).foldl
    (fun acc i =>
      acc ++ (m.drop (i * Resource.MAPHASH_LEN)).take Resource.MAPHASH_LEN) []

/-- `ResourceAdvertisement.pack(segment)` (lines 1308-1330), with the
serializer modelled as the identity: the packed object is the dictionary
with keys t, d, n, h, r, o, i, l, q, f and the hashmap slice m. -/
def pack (hashmapMaxLen segment : Nat) (a : Adv) : AdvDict :=
  { t := a.t, d := a.d, n := a.n, h := a.h, r := a.r, o := a.o,
    i := a.i, l := a.l, q := a.q, f := a.f,
    m := sliceConcat a.m (segment * hashmapMaxLen)
      (min ((segment + 1) * hashmapMaxLen) a.n) }

/-- `ResourceAdvertisement.unpack(data)` (lines 1333-1356), with the
serializer modelled as the identity on the dictionary: copy the fields
and reconstruct the `e,c,s,u,p,x` booleans from the flag byte. -/
def unpack (d : AdvDict) : Adv :=
  { t := d.t, d := d.d, n := d.n, h := d.h, r := d.r, o := d.o,
    m := d.m, f := d.f, i := d.i, l := d.l, q := d.q,
    e := (d.f &&& 0x01) == 0x01,
    c := ((d.f >>> 1) &&& 0x01) == 0x01,
    s := ((d.f >>> 2) &&& 0x01) == 0x01,
    u := ((d.f >>> 3) &&& 0x01) == 0x01,
    p := ((d.f >>> 4) &&& 0x01) == 0x01,
    x := ((d.f >>> 5) &&& 0x01) == 0x01 }

/-- Each boolean is recovered from its bit in the flag byte. -/
theorem flagByte_bits (e c s u p x : Bool) :
    ((flagByte e c s u p x &&& 0x01) == 0x01) = e ∧
    (((flagByte e c s u p x >>> 1) &&& 0x01) == 0x01) = c ∧
    (((flagByte e c s u p x >>> 2) &&& 0x01) == 0x01) = s ∧
    (((flagByte e c s u p x >>> 3) &&& 0x01) == 0x01) = u ∧
    (((flagByte e c s u p x >>> 4) &&& 0x01) == 0x01) = p ∧
    (((flagByte e c s u p x >>> 5) &&& 0x01) == 0x01) = x := by
  cases e <;> cases c <;> cases s <;> cases u <;> cases p <;> cases x <;> decide

end ResourceAdvertisement

/-- C8: advertisement serialization round-trips.  For every resource and
hashmap capacity, unpacking the packed advertisement returns a record
whose fields t, d, n, h, r, o, i, l, q, f equal those of the packed
advertisement, and whose booleans e, c, s, u, p, x — reconstructed from
the flag byte laid out as bit0 encrypted, bit1 compressed, bit2 split,
bit3 is-request, bit4 is-response, bit5 has-metadata — equal the
resource's encrypted, compressed, split, is-request
(`request_id` set and not a response), is-response (`request_id` set and
a response), and has-metadata flags. -/
theorem C8_advertisement_roundtrip
    (res : ResourceAdvertisement.ResFields) (hashmapMaxLen : Nat) :
    (ResourceAdvertisement.unpack (ResourceAdvertisement.pack hashmapMaxLen 0
        (ResourceAdvertisement.mkAdv res))).t =
      (ResourceAdvertisement.pack hashmapMaxLen 0
        (ResourceAdvertisement.mkAdv res)).t ∧
    (ResourceAdvertisement.unpack (ResourceAdvertisement.pack hashmapMaxLen 0
        (ResourceAdvertisement.mkAdv res))).d =
      (ResourceAdvertisement.pack hashmapMaxLen 0
        (ResourceAdvertisement.mkAdv res)).d ∧
    (ResourceAdvertisement.unpack (ResourceAdvertisement.pack hashmapMaxLen 0
        (ResourceAdvertisement.mkAdv res))).n =
      (ResourceAdvertisement.pack hashmapMaxLen 0
        (ResourceAdvertisement.mkAdv res)).n ∧
    (ResourceAdvertisement.unpack (ResourceAdvertisement.pack hashmapMaxLen 0
        (ResourceAdvertisement.mkAdv res))).h =
      (ResourceAdvertisement.pack hashmapMaxLen 0
        (ResourceAdvertisement.mkAdv res)).h ∧
    (ResourceAdvertisement.unpack (ResourceAdvertisement.pack hashmapMaxLen 0
        (ResourceAdvertisement.mkAdv res))).r =
      (ResourceAdvertisement.pack hashmapMaxLen 0
        (ResourceAdvertisement.mkAdv res)).r ∧
    (ResourceAdvertisement.unpack (ResourceAdvertisement.pack hashmapMaxLen 0
        (ResourceAdvertisement.mkAdv res))).o =
      (ResourceAdvertisement.pack hashmapMaxLen 0
        (ResourceAdvertisement.mkAdv res)).o ∧
    (ResourceAdvertisement.unpack (ResourceAdvertisement.pack hashmapMaxLen 0
        (ResourceAdvertisement.mkAdv res))).i =
      (ResourceAdvertisement.pack hashmapMaxLen 0
        (ResourceAdvertisement.mkAdv res)).i ∧
    (ResourceAdvertisement.unpack (ResourceAdvertisement.pack hashmapMaxLen 0
        (ResourceAdvertisement.mkAdv res))).l =
      (ResourceAdvertisement.pack hashmapMaxLen 0
        (ResourceAdvertisement.mkAdv res)).l ∧
    (ResourceAdvertisement.unpack (ResourceAdvertisement.pack hashmapMaxLen 0
        (ResourceAdvertisement.mkAdv res))).q =
      (ResourceAdvertisement.pack hashmapMaxLen 0
        (ResourceAdvertisement.mkAdv res)).q ∧
    (ResourceAdvertisement.unpack (ResourceAdvertisement.pack hashmapMaxLen 0
        (ResourceAdvertisement.mkAdv res))).f =
      (ResourceAdvertisement.pack hashmapMaxLen 0
        (ResourceAdvertisement.mkAdv res)).f ∧
    (ResourceAdvertisement.unpack (ResourceAdvertisement.pack hashmapMaxLen 0
        (ResourceAdvertisement.mkAdv res))).e = res.encrypted ∧
    (ResourceAdvertisement.unpack (ResourceAdvertisement.pack hashmapMaxLen 0
        (ResourceAdvertisement.mkAdv res))).c = res.compressed ∧
    (ResourceAdvertisement.unpack (ResourceAdvertisement.pack hashmapMaxLen 0
        (ResourceAdvertisement.mkAdv res))).s = res.split ∧
    (ResourceAdvertisement.unpack (ResourceAdvertisement.pack hashmapMaxLen 0
        (ResourceAdvertisement.mkAdv res))).u =
      (res.request_id.isSome && !res.is_response) ∧
    (ResourceAdvertisement.unpack (ResourceAdvertisement.pack hashmapMaxLen 0
        (ResourceAdvertisement.mkAdv res))).p =
      (res.request_id.isSome && res.is_response) ∧
    (ResourceAdvertisement.unpack (ResourceAdvertisement.pack hashmapMaxLen 0
        (ResourceAdvertisement.mkAdv res))).x = res.has_metadata := by
  obtain ⟨he, hc, hs, hu, hp, hx⟩ :=
    ResourceAdvertisement.flagByte_bits res.encrypted res.compressed res.split
      (res.request_id.isSome && !res.is_response)
      (res.request_id.isSome && res.is_response) res.has_metadata
  exact ⟨rfl, rfl, rfl, rfl, rfl, rfl, rfl, rfl, rfl, rfl,
    he, hc, hs, hu, hp, hx⟩

namespace Resource

/-- The receiver-resource fields read or written by the part-matching
loop of `receive_part` (Resource.py lines 842-876).  Receiver hashmap
entries are `none` until installed; part slots are `none` until
received. -/
structure RecvState where
  hashmap : List (Option (List Nat))
  window : Nat
  parts : List (Option (List Nat))
  received_count : Int
  outstanding_parts : Int
  rtt_rxd_bytes : Int
  consecutive_completed_height : Int
deriving DecidableEq

/-- The `cp = cch + 1; while cp < len(parts) and parts[cp] != None`
advance of `consecutive_completed_height` (lines 863-866). -/
def advanceCch (parts : List (Option (List Nat))) (cch : Int) : Int :=
  if h : 0 ≤ cch + 1 ∧ (cch + 1).toNat < parts.length ∧
      parts.get? (cch + 1).toNat ≠ some none then
    advanceCch parts (cch + 1)
  else cch
termination_by parts.length - (cch + 1).toNat
decreasing_by omega

/-- Insertion of a matched part at slot `i` (lines 853-866): store the
data, update the byte and part counters, bump
`consecutive_completed_height` when the slot extends the contiguous
prefix, then advance it over the contiguous filled slots. -/
def insertPart (i : Nat) (part_data : List Nat) (s : RecvState) : RecvState :=
  let parts' := s.parts.set i (some part_data)
  let cch1 : Int :=
    if (i : Int) = s.consecutive_completed_height + 1 then (i : Int)
    else s.consecutive_completed_height
  { s with
    parts := parts',
    rtt_rxd_bytes := s.rtt_rxd_bytes + part_data.length,
    received_count := s.received_count + 1,
    outstanding_parts := s.outstanding_parts - 1,
    consecutive_completed_height := advanceCch parts' cch1 }

/-- The `for map_hash in hashmap[ci:ci+window]` loop of `receive_part`
(lines 848-874): `i` tracks the absolute slot index; a slot is written
only when its map hash matches the received part's hash and the slot is
still empty. -/
def recvLoop (part_hash part_data : List Nat) :
    List (Option (List Nat)) → Nat → RecvState → RecvState
  | [], _, s => s
  | mh :: rest, i, s =>
    recvLoop part_hash part_data rest (i + 1)
      (if mh = some part_hash ∧ s.parts.get? i = some none then
        insertPart i part_data s
      else s)

/-- `consecutive_index` (line 847): `consecutive_completed_height`
clamped at 0. -/
def consIndex (s : RecvState) : Nat :=
  if 0 ≤ s.consecutive_completed_height then
    s.consecutive_completed_height.toNat
  else 0

/-- The part-matching portion of `receive_part` (lines 842-874), with the
map-hash collaborator (`get_map_hash`, lines 497-498, a truncated
cryptographic hash) passed in as `mapHash`: compute the part's map hash
and scan `hashmap[consecutive_index : consecutive_index + window]`. -/
def receive_part (mapHash : List Nat → List Nat) (s : RecvState)
    (part_data : List Nat) : RecvState :=
  recvLoop (mapHash part_data) part_data
    ((s.hashmap.drop (consIndex s)).take s.window) (consIndex s) s

theorem advanceCch_ge (parts : List (Option (List Nat))) (cch : Int) :
    cch ≤ advanceCch parts cch := by
  induction cch using advanceCch.induct parts with
  | case1 cch h ih =>
    rw [advanceCch, dif_pos h]
    omega
  | case2 cch h =>
    rw [advanceCch, dif_neg h]

theorem insertPart_cch_ge (i : Nat) (pd : List Nat) (s : RecvState) :
    s.consecutive_completed_height ≤
      (insertPart i pd s).consecutive_completed_height := by
  unfold insertPart
  dsimp only
  by_cases hi : (i : Int) = s.consecutive_completed_height + 1
  · rw [if_pos hi]
    have h := advanceCch_ge (s.parts.set i (some pd)) (i : Int)
    omega
  · rw [if_neg hi]
    exact advanceCch_ge _ _

theorem recvLoop_cch_ge (ph pd : List Nat)
    (entries : List (Option (List Nat))) :
    ∀ (i : Nat) (s : RecvState),
      s.consecutive_completed_height ≤
        (recvLoop ph pd entries i s).consecutive_completed_height := by
  induction entries with
  | nil => intro i s; simp [recvLoop]
  | cons mh rest ih =>
    intro i s
    rw [recvLoop]
    by_cases hg : mh = some ph ∧ s.parts.get? i = some none
    · rw [if_pos hg]
      exact le_trans (insertPart_cch_ge i pd s) (ih (i + 1) _)
    · rw [if_neg hg]
      exact ih (i + 1) s

theorem insertPart_preserve (i : Nat) (pd : List Nat) (s : RecvState)
    (j : Nat) (v : List Nat) (hguard : s.parts.get? i = some none)
    (hj : s.parts.get? j = some (some v)) :
    (insertPart i pd s).parts.get? j = some (some v) := by
  have hne : i ≠ j := by
    intro hij
    rw [hij, hj] at hguard
    cases hguard
  unfold insertPart
  dsimp only
  rw [List.get?_set_ne _ _ hne]
  exact hj

theorem recvLoop_preserve (ph pd : List Nat)
    (entries : List (Option (List Nat))) :
    ∀ (i : Nat) (s : RecvState) (j : Nat) (v : List Nat),
      s.parts.get? j = some (some v) →
      (recvLoop ph pd entries i s).parts.get? j = some (some v) := by
  induction entries with
  | nil => intro i s j v hj; simpa [recvLoop] using hj
  | cons mh rest ih =>
    intro i s j v hj
    rw [recvLoop]
    by_cases hg : mh = some ph ∧ s.parts.get? i = some none
    · rw [if_pos hg]
      exact ih (i + 1) _ j v (insertPart_preserve i pd s j v hg.2 hj)
    · rw [if_neg hg]
      exact ih (i + 1) s j v hj

theorem recvLoop_no_match (ph pd : List Nat)
    (entries : List (Option (List Nat))) :
    ∀ (i : Nat) (s : RecvState),
      (∀ k, entries.get? k = some (some ph) →
        s.parts.get? (i + k) ≠ some none) →
      recvLoop ph pd entries i s = s := by
  induction entries with
  | nil => intro i s _; rfl
  | cons mh rest ih =>
    intro i s hcond
    rw [recvLoop]
    have hg : ¬ (mh = some ph ∧ s.parts.get? i = some none) := by
      rintro ⟨hmh, hislot⟩
      have := hcond 0 (by simpa using congrArg some hmh)
      simp only [Nat.add_zero] at this
      exact this hislot
    rw [if_neg hg]
    exact ih (i + 1) s (fun k hk => by
      have := hcond (k + 1) (by simpa using hk)
      have harith : i + (k + 1) = i + 1 + k := by omega
      rw [harith] at this
      exact this)

end Resource

/-- C4: for every incoming part whose map hash matches no entry of the
scanned hashmap window, or matches only slots already filled, the
part-matching loop of `receive_part` changes nothing (in particular the
parts sequence, `received_count` and `consecutive_completed_height` are
unchanged); a slot already holding data keeps it (a given slot is
written at most once); and `consecutive_completed_height` never
decreases across calls. -/
theorem C4_receive_part_effects (mapHash : List Nat → List Nat)
    (s : Resource.RecvState) (pd : List Nat) :
    ((∀ k, ((s.hashmap.drop (Resource.consIndex s)).take s.window).get? k =
          some (some (mapHash pd)) →
        s.parts.get? (Resource.consIndex s + k) ≠ some none) →
      Resource.receive_part mapHash s pd = s) ∧
    (∀ (j : Nat) (v : List Nat), s.parts.get? j = some (some v) →
      (Resource.receive_part mapHash s pd).parts.get? j = some (some v)) ∧
    s.consecutive_completed_height ≤
      (Resource.receive_part mapHash s pd).consecutive_completed_height := by
  refine ⟨?_, ?_, ?_⟩
  · intro hcond
    exact Resource.recvLoop_no_match (mapHash pd) pd _ _ s hcond
  · intro j v hj
    exact Resource.recvLoop_preserve (mapHash pd) pd _ _ s j v hj
  · exact Resource.recvLoop_cch_ge (mapHash pd) pd _ _ s

/-- A concrete receiver state for the C4 witness: two slots, the first
already filled, hashmap fully known. -/
def recvWitnessState : Resource.RecvState :=
  { hashmap := [some [1, 1, 1, 1], some [2, 2, 2, 2]], window := 2,
    parts := [some [9], none], received_count := 1, outstanding_parts := 1,
    rtt_rxd_bytes := 1, consecutive_completed_height := 0 }

/-- Witness for `C4_receive_part_effects`: a duplicate of the already
received first part (map hash `[1,1,1,1]`) arrives; the state is
unchanged, the filled slot keeps its data, and the height does not
decrease. -/
theorem C4_receive_part_effects_witness :
    ((∀ k, ((recvWitnessState.hashmap.drop
            (Resource.consIndex recvWitnessState)).take
            recvWitnessState.window).get? k =
          some (some ((fun pd => pd.take 4) [1, 1, 1, 1, 5])) →
        recvWitnessState.parts.get?
            (Resource.consIndex recvWitnessState + k) ≠ some none) →
      Resource.receive_part (fun pd => pd.take 4) recvWitnessState
          [1, 1, 1, 1, 5] = recvWitnessState) ∧
    (∀ (j : Nat) (v : List Nat),
      recvWitnessState.parts.get? j = some (some v) →
      (Resource.receive_part (fun pd => pd.take 4) recvWitnessState
          [1, 1, 1, 1, 5]).parts.get? j = some (some v)) ∧
    recvWitnessState.consecutive_completed_height ≤
      (Resource.receive_part (fun pd => pd.take 4) recvWitnessState
          [1, 1, 1, 1, 5]).consecutive_completed_height :=
  C4_receive_part_effects (fun pd => pd.take 4) recvWitnessState [1, 1, 1, 1, 5]

namespace Resource

/-- The link-collaborator facts `Resource.accept` consults (the link
class is outside src/): the per-part payload size derived from the link
MTU (lines 339-342), the `has_incoming_resource` check by resource hash
(line 226), and the prior-resource window hint (lines 219-222). -/
structure LinkModel where
  sdu : Nat
  hasIncoming : List Nat → Bool
  lastWindow : Option Int

/-- The receiver resource assembled by `Resource.accept`, restricted to
the fields the claim observes. -/
structure RecvResource where
  status : Nat
  hash : List Nat
  total_parts : Nat
  parts : List (Option (List Nat))
  window : Int
deriving DecidableEq

/-- `total_parts = ceil(size / sdu)` (line 191). -/
def acceptTotalParts (link : LinkModel) (adv : ResourceAdvertisement.Adv) :
    Nat :=
  (adv.t + link.sdu - 1) / link.sdu

/-- The window after the prior-resource hint (lines 195, 219-222):
`WINDOW`, overridden by a truthy `get_last_resource_window()` value. -/
def acceptWindow (link : LinkModel) : Int :=
  match link.lastWindow with
  | some w => if w ≠ 0 then w else WINDOW
  | none => WINDOW

/-- The number of map hashes carried in the advertisement
(`hashes = len(hashmap)//MAPHASH_LEN`, line 488). -/
def advHashes (adv : ResourceAdvertisement.Adv) : Nat :=
  adv.m.length / MAPHASH_LEN

/-- The inputs on which `accept` raises internally AFTER registering the
resource: an IndexError in `hashmap_update` (line 490) when the
advertised hashmap has more entries than `total_parts`, or a TypeError
in `request_next` (lines 943-946, `hmu_part += last_map_hash` with
`last_map_hash = hashmap[hashmap_height-1] = None`) when no hashmap
entry was advertised but at least one part must be requested. -/
def acceptFaults (link : LinkModel) (adv : ResourceAdvertisement.Adv) :
    Prop :=
  acceptTotalParts link adv < advHashes adv ∨
    (advHashes adv = 0 ∧ 1 ≤ acceptWindow link ∧
      1 ≤ acceptTotalParts link adv)

instance (link : LinkModel) (adv : ResourceAdvertisement.Adv) :
    Decidable (acceptFaults link adv) := by
  unfold acceptFaults
  infer_instance

/-- The resource record returned on the successful path of `accept`
(lines 175-238): status TRANSFERRING, `total_parts` empty part slots,
the advertised hash, and the hinted window. -/
def acceptResource (link : LinkModel) (adv : ResourceAdvertisement.Adv) :
    RecvResource :=
  { status := TRANSFERRING, hash := adv.h,
    total_parts := acceptTotalParts link adv,
    parts := List.replicate (acceptTotalParts link adv) none,
    window := acceptWindow link }

/-- `Resource.accept` (lines 170-246).  The whole body runs inside
`try/except`, so no exception reaches the caller: a plaintext that does
not unpack into a typed advertisement is modelled as `parsed = none` and
yields `(none, false)`; `sdu = 0` raises before registration
(ZeroDivisionError at line 191) and yields `(none, false)`; a duplicate
incoming hash yields `(none, false)` (line 242, nothing newly
registered); after registration, `hashmap_update`/`request_next` raise
on the `acceptFaults` inputs, caught by the outer handler — `accept`
returns `none` but the registration flag stays `true`.  Otherwise the
TRANSFERRING resource is returned, registered. -/
def accept (link : LinkModel) (parsed : Option ResourceAdvertisement.Adv) :
    Option RecvResource × Bool :=
  match parsed with
  | none => (none, false)
  | some adv =>
    if link.sdu = 0 then (none, false)
    else if link.hasIncoming adv.h then (none, false)
    else if acceptTotalParts link adv < advHashes adv then (none, true)
    else if advHashes adv = 0 ∧ 1 ≤ acceptWindow link ∧
        1 ≤ acceptTotalParts link adv then (none, true)
    else (some (acceptResource link adv), true)

end Resource

/-- C10 counterexample link: 464-byte parts, no resource registered yet,
no window hint. -/
def c10Link : Resource.LinkModel :=
  { sdu := 464, hasIncoming := fun _ => false, lastWindow := none }

/-- C10 counterexample advertisement: a VALID typed advertisement (one
464-byte part) that is not a duplicate, but whose hashmap field carries
two map hashes — more than `total_parts = 1`. -/
def c10BadAdv : ResourceAdvertisement.Adv :=
  { t := 464, d := 464, n := 1, h := [1], r := [2], o := [3],
    m := List.replicate 8 3, c := false, e := true, s := false, x := false,
    i := 1, l := 1, q := none, u := false, p := false, f := 1 }

/-- C10 counterexample: `c10BadAdv` unpacks as a valid advertisement and
its hash is not an incoming resource, yet `accept` returns `None` — the
IndexError raised in `hashmap_update` (reading `hashmap[i]` at
`i = total_parts`) is swallowed by the outer `except`, after the
resource was already registered — contradicting the claim that accept
then returns a registered Resource with status TRANSFERRING. -/
theorem C10_counterexample :
    c10Link.hasIncoming c10BadAdv.h = false ∧
    Resource.accept c10Link (some c10BadAdv) = (none, true) := by
  constructor
  · rfl
  · decide

/-- C10 (amended): `accept` never propagates an exception (it is a total
function into `Option`): a plaintext that fails to unpack as a typed
advertisement gives `None` with nothing registered; a duplicate incoming
hash gives `None` with nothing newly registered; otherwise, when the
advertised hashmap fits (`len(m)/MAPHASH_LEN ≤ total_parts`, and is
non-empty whenever a part must be requested), `accept` returns a
Resource registered as incoming with status TRANSFERRING; on the
remaining (fault) inputs the internal exception is caught and `accept`
returns `None` while the resource stays registered. -/
theorem C10_accept_amended (link : Resource.LinkModel)
    (adv : ResourceAdvertisement.Adv) (hsdu : 0 < link.sdu) :
    (Resource.accept link none = (none, false)) ∧
    (link.hasIncoming adv.h = true →
      Resource.accept link (some adv) = (none, false)) ∧
    (link.hasIncoming adv.h = false → ¬ Resource.acceptFaults link adv →
      Resource.accept link (some adv) =
          (some (Resource.acceptResource link adv), true) ∧
        (Resource.acceptResource link adv).status = Resource.TRANSFERRING) ∧
    (link.hasIncoming adv.h = false → Resource.acceptFaults link adv →
      Resource.accept link (some adv) = (none, true)) := by
  have hne : ¬ link.sdu = 0 := Nat.pos_iff_ne_zero.mp hsdu
  refine ⟨rfl, ?_, ?_, ?_⟩
  · intro hdup
    simp [Resource.accept, hne, hdup]
  · intro hdup hok
    rw [Resource.acceptFaults, not_or] at hok
    obtain ⟨h1, h2⟩ := hok
    constructor
    · simp [Resource.accept, hne, hdup, h1, h2]
    · rfl
  · intro hdup hfault
    rcases hfault with h1 | h2
    · simp [Resource.accept, hne, hdup, h1]
    · by_cases h1 : Resource.acceptTotalParts link adv <
          Resource.advHashes adv
      · simp [Resource.accept, hne, hdup, h1]
      · simp [Resource.accept, hne, hdup, h1, h2]

/-- A valid, fault-free advertisement for the C10 witness: one part,
one advertised map hash. -/
def c10GoodAdv : ResourceAdvertisement.Adv :=
  { t := 464, d := 464, n := 1, h := [1], r := [2], o := [3],
    m := List.replicate 4 3, c := false, e := true, s := false, x := false,
    i := 1, l := 1, q := none, u := false, p := false, f := 1 }

/-- Witness for `C10_accept_amended` at the concrete link and a
fault-free advertisement. -/
theorem C10_accept_amended_witness :
    (0 < c10Link.sdu) ∧
    ((Resource.accept c10Link none = (none, false)) ∧
      (c10Link.hasIncoming c10GoodAdv.h = true →
        Resource.accept c10Link (some c10GoodAdv) = (none, false)) ∧
      (c10Link.hasIncoming c10GoodAdv.h = false →
        ¬ Resource.acceptFaults c10Link c10GoodAdv →
        Resource.accept c10Link (some c10GoodAdv) =
            (some (Resource.acceptResource c10Link c10GoodAdv), true) ∧
          (Resource.acceptResource c10Link c10GoodAdv).status =
            Resource.TRANSFERRING) ∧
      (c10Link.hasIncoming c10GoodAdv.h = false →
        Resource.acceptFaults c10Link c10GoodAdv →
        Resource.accept c10Link (some c10GoodAdv) = (none, true))) :=
  ⟨by decide, C10_accept_amended c10Link c10GoodAdv (by decide)⟩
